import Mathlib

/-!
Verification development for the openvpn3 packet-processing core:
the per-packet decrypt pipeline (`openvpn/crypto/decrypt.hpp`) and the
reliable receive window (`openvpn/reliable/relrecv.hpp`).

Pure, executable shallow embedding.  Components whose source is present
(`Decrypt::decrypt`, `Decrypt::verify_packet_id`,
`ReliableRecvTemplate::receive/ready/next_sequenced/advance`) are
translated statement by statement.  Collaborators whose headers are not
part of this tree (`BufferAllocated`, `PacketIDReceive`, `MessageWindow`,
`memcmp_secure`) are modelled from their contracts in the specification.
-/

namespace openvpn

/-- Modelled from the spec: the Byte Buffer contract — a mutable byte
region with prefix consumption (`read`/`read_alloc` fail when fewer than
`n` bytes remain), `size`, `reset_size`, and `swap`.  We model the
readable region as the list of remaining bytes; consumption drops a
prefix, `reset_size` empties it, `swap` is content exchange. -/
structure Buffer where
  bytes : List Nat
  deriving DecidableEq, Repr

namespace Buffer

def size (b : Buffer) : Nat := b.bytes.length

/-- Model of `read_alloc n`: consume an `n`-byte head, returning it and the rest;
fails (buffer exception in the source) when fewer than `n` bytes remain. -/
def read_alloc (b : Buffer) (n : Nat) : Option (List Nat × Buffer) :=
  if n ≤ b.bytes.length then some (b.bytes.take n, ⟨b.bytes.drop n⟩)
  else none

/-- Model of `reset_size`: truncate to empty. -/
def reset_size (_ : Buffer) : Buffer := ⟨[]⟩

def empty : Buffer := ⟨[]⟩

end Buffer

/-- Per-packet decrypt outcome, `Error::Type` values used by
`Decrypt::decrypt`. -/
inductive Error where
  | SUCCESS
  | HMAC_ERROR
  | DECRYPT_ERROR
  | REPLAY_ERROR
  deriving DecidableEq, Repr

/-- Exceptions that can escape the per-packet path in the source:
`unsupported_cipher_mode` (thrown at decrypt.hpp line 85) and the buffer
underflow exception raised by `read`/`read_alloc` on short input. -/
inductive Exc where
  | unsupported_cipher_mode
  | buffer_underflow
  deriving DecidableEq, Repr

/-- Modelled from the spec: the Keyed MAC contract — reports whether a
key is configured and a fixed output size, and computes a tag over a
byte range. -/
structure HMACCtx where
  is_defined : Bool
  output_size : Nat
  tag : List Nat → List Nat

/-- The `CIPH_CBC_MODE` tag of `CRYPTO_API::CipherContext` (the only
mode the pipeline supports; the concrete integer is backend-defined). -/
def CIPH_CBC_MODE : Nat := 2

/-- Modelled from the spec: the Block Cipher contract — reports whether
a key is configured, the required IV length and the operating mode tag;
`dec iv input` yields the produced plaintext bytes, the empty list
signalling failure (0 bytes produced). -/
structure CipherCtx where
  is_defined : Bool
  iv_length : Nat
  cipher_mode : Nat
  dec : List Nat → List Nat → List Nat

/-- Modelled from the spec: `memcmp_secure` — constant-time comparison,
nonzero (here `true`) exactly when the two tags differ. -/
def memcmp_secure (a b : List Nat) : Bool := a ≠ b

/-- A packet identifier, optionally paired with a timestamp (long form). -/
structure PacketID where
  pid_id : Nat
  pid_time : Nat
  deriving DecidableEq, Repr

/-- Modelled from the spec: the Anti-Replay Window (`PacketIDReceive`) —
a high-water mark plus a bounded record of which of the most recent
`seq_backtrack` identifiers below the mark have been seen, with an
optional time-tolerance dimension in long form. -/
structure PacketIDReceive where
  init_done : Bool
  long_form : Bool
  time_backtrack : Nat
  seq_backtrack : Nat
  mark : Nat
  seen : List Nat
  deriving DecidableEq, Repr

namespace PacketIDReceive

/-- Decode four bytes, big-endian. -/
def decode4 (l : List Nat) : Nat :=
  match l with
  | [a, b, c, d] => ((a * 256 + b) * 256 + c) * 256 + d
  | _ => 0

/-- Modelled from the spec: `read_next` consumes the packet-identifier
prefix from the head of the buffer (id plus timestamp in long form, bare
id in short form); fails on a short buffer per the Byte Buffer contract. -/
def read_next (p : PacketIDReceive) (b : Buffer) : Option (PacketID × Buffer) :=
  let n := if p.long_form then 8 else 4
  match b.read_alloc n with
  | none => none
  | some (hd, rest) =>
      if p.long_form then
        some (⟨decode4 (hd.take 4), decode4 (hd.drop 4)⟩, rest)
      else
        some (⟨decode4 hd, 0⟩, rest)

/-- Modelled from the spec: `test(id, now)` — pure accept/reject.  An id
at or above the high-water mark is always new; an id within the tracked
recent range is accepted iff not already recorded; an id below that
range is rejected; in long form an id whose timestamp is older than the
backdate tolerance is rejected regardless of position. -/
def test (p : PacketIDReceive) (pid : PacketID) (now : Nat) : Bool :=
  (!p.long_form || decide (now ≤ pid.pid_time + p.time_backtrack)) &&
  (if p.mark ≤ pid.pid_id then true
   else if p.mark - pid.pid_id ≤ p.seq_backtrack then !(p.seen.contains pid.pid_id)
   else false)

/-- Modelled from the spec: `add(id, now)` — record an accepted id; an
id at or above the mark advances the mark to `id + 1`. -/
def add (p : PacketIDReceive) (pid : PacketID) (_now : Nat) : PacketIDReceive :=
  if p.mark ≤ pid.pid_id then
    { p with mark := pid.pid_id + 1, seen := pid.pid_id :: p.seen }
  else
    { p with seen := pid.pid_id :: p.seen }

end PacketIDReceive

/-- Configuration and mutable state of one `Decrypt<CRYPTO_API>`
pipeline instance: cipher context, HMAC context and anti-replay window
(the scratch `work` buffer is overwritten on every call and carries no
state across calls). -/
structure Decrypt where
  cipher : CipherCtx
  hmac : HMACCtx
  pid_recv : PacketIDReceive

namespace Decrypt

/-- Embedding of `Decrypt::verify_packet_id` (decrypt.hpp lines 108-120): if the
anti-replay window is not initialized the packet id is ignored and the
buffer is passed through untouched; otherwise the id prefix is consumed
with `read_next`, tested, and recorded via `add` on acceptance.
`none` signals rejection (replay), `Except.error` a buffer underflow
inside `read_next`. -/
def verify_packet_id (pid : PacketIDReceive) (buf : Buffer) (now : Nat) :
    Except Exc (Option (Buffer × PacketIDReceive)) :=
  if pid.init_done then
    match pid.read_next buf with
    | none => .error .buffer_underflow
    | some (p, rest) =>
        if pid.test p now then .ok (some (rest, pid.add p now))
        else .ok none
  else
    .ok (some (buf, pid))

/-- The HMAC verification step of `Decrypt::decrypt` (decrypt.hpp lines
38-50): when a MAC key is configured, consume the tag from the head of
the packet, recompute over the remaining bytes and compare with
`memcmp_secure`.  `some rest` is the surviving buffer, `none` a tag
mismatch, `Except.error` a buffer underflow in `read_alloc`. -/
def hmac_step (hm : HMACCtx) (buf : Buffer) : Except Exc (Option Buffer) :=
  if hm.is_defined then
    match buf.read_alloc hm.output_size with
    | none => .error .buffer_underflow
    | some (packet_hmac, rest) =>
        if memcmp_secure (hm.tag rest.bytes) packet_hmac then .ok none
        else .ok (some rest)
  else .ok (some buf)

/-- Embedding of `Decrypt::decrypt` (decrypt.hpp lines 32-100), returning the outcome
together with the caller's buffer content after the call and the
anti-replay window state after the call; `Except.error` models an
exception escaping the per-packet path. -/
def decrypt (st : Decrypt) (buf : Buffer) (now : Nat) :
    Except Exc (Error × Buffer × PacketIDReceive) :=
  -- skip null packets
  if buf.size = 0 then .ok (.SUCCESS, buf, st.pid_recv)
  else
    -- verify the HMAC
    match hmac_step st.hmac buf with
    | .error e => .error e
    | .ok none => .ok (.HMAC_ERROR, Buffer.empty, st.pid_recv)
    | .ok (some buf1) =>
        -- decrypt packet ID + payload
        if st.cipher.is_defined then
          -- extract IV from head of packet
          match buf1.read_alloc st.cipher.iv_length with
          | none => .error .buffer_underflow
          | some (iv, buf2) =>
              -- decrypt from buf -> work
              if (st.cipher.dec iv buf2.bytes).length = 0 then
                .ok (.DECRYPT_ERROR, Buffer.empty, st.pid_recv)
              else
                -- handle different cipher modes
                if st.cipher.cipher_mode = CIPH_CBC_MODE then
                  match verify_packet_id st.pid_recv ⟨st.cipher.dec iv buf2.bytes⟩ now with
                  | .error e => .error e
                  | .ok none => .ok (.REPLAY_ERROR, Buffer.empty, st.pid_recv)
                  | .ok (some (work1, pid1)) =>
                      -- return cleartext result in buf (buf.swap(work))
                      .ok (.SUCCESS, work1, pid1)
                else
                  .error .unsupported_cipher_mode
        else -- no encryption
          match verify_packet_id st.pid_recv buf1 now with
          | .error e => .error e
          | .ok none => .ok (.REPLAY_ERROR, Buffer.empty, st.pid_recv)
          | .ok (some (buf2, pid1)) => .ok (.SUCCESS, buf2, pid1)

end Decrypt

/-! ### Reliable receive window (`openvpn/reliable/relrecv.hpp`) -/

/-- A slot message of `ReliableRecvTemplate::Message`
(`ReliableMessageBase`): the sequencing id assigned at receive time and
the application packet payload. -/
structure RMessage (P : Type) where
  msg_id : Nat
  packet : P
  deriving DecidableEq, Repr

/-- Modelled from the spec: the generic sliding window (`MessageWindow`)
used by `ReliableRecvTemplate` — a fixed `span` of slots indexed by
`id mod span`, each holding a defined flag plus a message (here an
`Option`), with a base identifier (`head_id`) that only moves forward. -/
structure MessageWindow (P : Type) where
  head_id : Nat
  span : Nat
  slots : List (Option (RMessage P))
  deriving DecidableEq, Repr

namespace MessageWindow

variable {P : Type}

def init (start span : Nat) : MessageWindow P :=
  ⟨start, span, List.replicate span none⟩

def in_window (w : MessageWindow P) (id : Nat) : Bool :=
  decide (w.head_id ≤ id) && decide (id < w.head_id + w.span)

def pre_window (w : MessageWindow P) (id : Nat) : Bool :=
  decide (id < w.head_id)

/-- Write the slot for `id` (the source's `ref_by_id` assignment). -/
def set_by_id (w : MessageWindow P) (id : Nat) (m : RMessage P) : MessageWindow P :=
  { w with slots := w.slots.set (id % w.span) (some m) }

def head_slot (w : MessageWindow P) : Option (RMessage P) :=
  w.slots.getD (w.head_id % w.span) none

def head_defined (w : MessageWindow P) : Bool :=
  w.head_slot.isSome

/-- Model of `ref_head`: the slot at the base, returned without any check. -/
def ref_head (w : MessageWindow P) : Option (RMessage P) :=
  w.head_slot

/-- Model of `rm_head_nocheck`: clear the slot at the base and advance the base
by one. -/
def rm_head_nocheck (w : MessageWindow P) : MessageWindow P :=
  { w with slots := w.slots.set (w.head_id % w.span) none,
           head_id := w.head_id + 1 }

end MessageWindow

/-- Receive flags returned by `ReliableRecvTemplate::receive`. -/
def ACK_TO_SENDER : Nat := 1
/-- Receive flag: packet is in-window (otherwise it is dropped). -/
def IN_WINDOW : Nat := 2

/-- State of `ReliableRecvTemplate<PACKET>`: just the window. -/
structure ReliableRecv (P : Type) where
  window_ : MessageWindow P
  deriving DecidableEq, Repr

namespace ReliableRecv

variable {P : Type}

def init (span : Nat) : ReliableRecv P :=
  ⟨MessageWindow.init 0 span⟩

def base (r : ReliableRecv P) : Nat := r.window_.head_id

/-- Embedding of `ReliableRecvTemplate::receive` (relrecv.hpp lines 45-56): classify
`id` against the window, storing the packet when in-window. -/
def receive (r : ReliableRecv P) (packet : P) (id : Nat) :
    Nat × ReliableRecv P :=
  if r.window_.in_window id then
    (ACK_TO_SENDER ||| IN_WINDOW, ⟨r.window_.set_by_id id ⟨id, packet⟩⟩)
  else
    (if r.window_.pre_window id then ACK_TO_SENDER else 0, r)

/-- Embedding of `ready` (relrecv.hpp line 59). -/
def ready (r : ReliableRecv P) : Bool := r.window_.head_defined

/-- Embedding of `next_sequenced` (relrecv.hpp lines 63-66): returns
`window_.ref_head()` unconditionally — the source performs no readiness
check and raises no exception here. -/
def next_sequenced (r : ReliableRecv P) : Option (RMessage P) :=
  r.window_.ref_head

/-- Embedding of `advance` (relrecv.hpp lines 70-73). -/
def advance (r : ReliableRecv P) : ReliableRecv P :=
  ⟨r.window_.rm_head_nocheck⟩

/-- One call against the window, for reasoning about arbitrary call
sequences. -/
inductive ROp (P : Type) where
  | recv (packet : P) (id : Nat)
  | adv
  deriving Repr

def runOp (r : ReliableRecv P) : ROp P → ReliableRecv P
  | .recv p id => (r.receive p id).2
  | .adv => r.advance

def runOps (r : ReliableRecv P) : List (ROp P) → ReliableRecv P
  | [] => r
  | op :: ops => runOps (r.runOp op) ops

/-- Window well-formedness: the slot list has exactly `span` entries,
the span is positive, and every defined slot within the current window
holds the message received under that very id. -/
def Inv (r : ReliableRecv P) : Prop :=
  r.window_.slots.length = r.window_.span ∧
  0 < r.window_.span ∧
  ∀ k, k < r.window_.span →
    ∀ m, r.window_.slots.getD ((r.window_.head_id + k) % r.window_.span) none =
          some m → m.msg_id = r.window_.head_id + k

instance (r : ReliableRecv P) [DecidableEq P] : Decidable (Inv r) := by
  unfold Inv
  infer_instance

end ReliableRecv

/-! ### Concrete fixtures used to instantiate the theorems -/

/-- An uninitialized anti-replay window. -/
def pidOff : PacketIDReceive := ⟨false, false, 0, 0, 0, []⟩

/-- An initialized, short-form anti-replay window with empty history. -/
def pidOn : PacketIDReceive := ⟨true, false, 0, 64, 0, []⟩

/-- No MAC key configured. -/
def hmOff : HMACCtx := ⟨false, 0, fun _ => []⟩

/-- A MAC context with a one-byte tag that is always `[0]`. -/
def hmOne : HMACCtx := ⟨true, 1, fun _ => [0]⟩

/-- No cipher configured. -/
def ciOff : CipherCtx := ⟨false, 0, 0, fun _ x => x⟩

/-- A cipher whose reported mode (99) is not `CIPH_CBC_MODE`. -/
def ciBadMode : CipherCtx := ⟨true, 0, 99, fun _ x => x⟩

/-- Pipeline with the non-CBC cipher, no MAC, replay window off. -/
def stBadMode : Decrypt := ⟨ciBadMode, hmOff, pidOff⟩

/-- Pipeline where every one-byte packet fails MAC verification. -/
def stHmacFail : Decrypt := ⟨ciOff, hmOne, pidOff⟩

/-- Pipeline with no MAC and no cipher, replay window on. -/
def stPlain : Decrypt := ⟨ciOff, hmOff, pidOn⟩

/-- Pipeline with every stage unconfigured. -/
def stOff : Decrypt := ⟨ciOff, hmOff, pidOff⟩

/-- A window of span 2 holding messages 100 and 101 at ids 0 and 1. -/
def rTwo : ReliableRecv Nat :=
  (((ReliableRecv.init 2).receive 100 0).2.receive 101 1).2

/-! ## Theorems

One theorem per claim, preceded by helper lemmas shared between them. -/

/-- Claim C1 (code defect exhibited).  The spec claims decrypt always
yields one of the four classified outcomes and never escapes via an
exception on the per-packet path; but with a configured cipher whose
reported mode is not `CIPH_CBC_MODE`, a nonempty packet makes
`Decrypt::decrypt` throw `unsupported_cipher_mode` from inside the
per-packet path (decrypt.hpp line 85) instead of returning an outcome. -/
theorem decrypt_nonCBC_mode_raises :
    stBadMode.decrypt ⟨[1]⟩ 0 = .error .unsupported_cipher_mode := rfl

/-- Claim C3: decrypting an empty buffer yields `SUCCESS`, leaves the
buffer empty and leaves the anti-replay window untouched, for every
pipeline configuration and every time value. -/
theorem decrypt_empty_buffer_success (st : Decrypt) (now : Nat) :
    st.decrypt ⟨[]⟩ now = .ok (.SUCCESS, ⟨[]⟩, st.pid_recv) := rfl

/-- Claim C8 (code defect exhibited).  The spec claims calling
`next_sequenced()` when `ready()` is false raises the
`rel_next_sequenced_not_ready` contract violation; but the source
(relrecv.hpp lines 63-66) returns `window_.ref_head()` with no readiness
check — the declared exception is never thrown, and the undefined head
slot is silently handed back. -/
theorem next_sequenced_when_not_ready_silent :
    (ReliableRecv.init (P := Nat) 4).ready = false ∧
    (ReliableRecv.init (P := Nat) 4).next_sequenced = none := by
  exact ⟨rfl, rfl⟩

/-- Claim C2: whenever `decrypt` returns a failure outcome, the caller's
buffer is left truncated to empty, so no stale or partial content
remains readable. -/
theorem decrypt_failure_resets_buffer (st : Decrypt) (buf : Buffer) (now : Nat)
    (out : Error) (buf' : Buffer) (pid' : PacketIDReceive)
    (h : st.decrypt buf now = .ok (out, buf', pid'))
    (hfail : out ≠ .SUCCESS) : buf' = Buffer.empty := by
  unfold Decrypt.decrypt at h
  split at h
  · simp only [Except.ok.injEq, Prod.mk.injEq] at h
    exact absurd h.1.symm hfail
  · split at h
    · exact Except.noConfusion h
    · simp only [Except.ok.injEq, Prod.mk.injEq] at h
      exact h.2.1.symm
    · split at h
      · split at h
        · exact Except.noConfusion h
        · split at h
          · simp only [Except.ok.injEq, Prod.mk.injEq] at h
            exact h.2.1.symm
          · split at h
            · split at h
              · exact Except.noConfusion h
              · simp only [Except.ok.injEq, Prod.mk.injEq] at h
                exact h.2.1.symm
              · simp only [Except.ok.injEq, Prod.mk.injEq] at h
                exact absurd h.1.symm hfail
            · exact Except.noConfusion h
      · split at h
        · exact Except.noConfusion h
        · simp only [Except.ok.injEq, Prod.mk.injEq] at h
          exact h.2.1.symm
        · simp only [Except.ok.injEq, Prod.mk.injEq] at h
          exact absurd h.1.symm hfail

/-- Witness for claim C2's theorem: a one-byte packet fails MAC
verification and the returned buffer is empty. -/
theorem decrypt_failure_resets_buffer_witness :
    stHmacFail.decrypt ⟨[5]⟩ 0 = .ok (.HMAC_ERROR, ⟨[]⟩, pidOff) ∧
    (⟨[]⟩ : Buffer) = Buffer.empty :=
  ⟨rfl, decrypt_failure_resets_buffer stHmacFail ⟨[5]⟩ 0 .HMAC_ERROR ⟨[]⟩ pidOff rfl
    (by decide)⟩

/-- Helper: a successful `verify_packet_id` either left the anti-replay
window untouched, or recorded (via `add`) an identifier that `test`
accepted. -/
theorem verify_packet_id_ok_cases {pid : PacketIDReceive} {buf : Buffer} {now : Nat}
    {b' : Buffer} {pid' : PacketIDReceive}
    (h : Decrypt.verify_packet_id pid buf now = .ok (some (b', pid'))) :
    pid' = pid ∨ ∃ p, pid.test p now = true ∧ pid' = pid.add p now := by
  unfold Decrypt.verify_packet_id at h
  split at h
  · split at h
    · exact Except.noConfusion h
    · split at h
      · simp only [Except.ok.injEq, Option.some.injEq, Prod.mk.injEq] at h
        rename_i p rest heq htest
        exact Or.inr ⟨p, htest, h.2.symm⟩
      · simp at h
  · simp only [Except.ok.injEq, Option.some.injEq, Prod.mk.injEq] at h
    exact Or.inl h.2.symm

/-- Claim C4: the anti-replay window state is mutated only when `test`
accepts the packet identifier, in which case `add` records that same
identifier; on any failure outcome the window is unchanged. -/
theorem decrypt_mutates_window_only_on_accept (st : Decrypt) (buf : Buffer)
    (now : Nat) (out : Error) (buf' : Buffer) (pid' : PacketIDReceive)
    (h : st.decrypt buf now = .ok (out, buf', pid')) :
    (out ≠ .SUCCESS → pid' = st.pid_recv) ∧
    (pid' = st.pid_recv ∨ ∃ p, st.pid_recv.test p now = true ∧
        pid' = st.pid_recv.add p now) := by
  unfold Decrypt.decrypt at h
  split at h
  · simp only [Except.ok.injEq, Prod.mk.injEq] at h
    exact ⟨fun _ => h.2.2.symm, Or.inl h.2.2.symm⟩
  · split at h
    · exact Except.noConfusion h
    · simp only [Except.ok.injEq, Prod.mk.injEq] at h
      exact ⟨fun _ => h.2.2.symm, Or.inl h.2.2.symm⟩
    · split at h
      · split at h
        · exact Except.noConfusion h
        · split at h
          · simp only [Except.ok.injEq, Prod.mk.injEq] at h
            exact ⟨fun _ => h.2.2.symm, Or.inl h.2.2.symm⟩
          · split at h
            · split at h
              · exact Except.noConfusion h
              · simp only [Except.ok.injEq, Prod.mk.injEq] at h
                exact ⟨fun _ => h.2.2.symm, Or.inl h.2.2.symm⟩
              · rename_i heq
                simp only [Except.ok.injEq, Prod.mk.injEq] at h
                exact ⟨fun hne => absurd h.1.symm hne,
                  h.2.2 ▸ verify_packet_id_ok_cases heq⟩
            · exact Except.noConfusion h
      · split at h
        · exact Except.noConfusion h
        · simp only [Except.ok.injEq, Prod.mk.injEq] at h
          exact ⟨fun _ => h.2.2.symm, Or.inl h.2.2.symm⟩
        · rename_i heq
          simp only [Except.ok.injEq, Prod.mk.injEq] at h
          exact ⟨fun hne => absurd h.1.symm hne,
            h.2.2 ▸ verify_packet_id_ok_cases heq⟩

/-- Witness for claim C4's theorem: a plaintext pipeline accepts id 5
and records it with `add`. -/
theorem decrypt_mutates_window_only_on_accept_witness :
    stPlain.decrypt ⟨[0, 0, 0, 5]⟩ 0 = .ok (.SUCCESS, ⟨[]⟩, ⟨true, false, 0, 64, 6, [5]⟩) ∧
    ((Error.SUCCESS ≠ Error.SUCCESS →
        (⟨true, false, 0, 64, 6, [5]⟩ : PacketIDReceive) = stPlain.pid_recv) ∧
      ((⟨true, false, 0, 64, 6, [5]⟩ : PacketIDReceive) = stPlain.pid_recv ∨
        ∃ p, stPlain.pid_recv.test p 0 = true ∧
          (⟨true, false, 0, 64, 6, [5]⟩ : PacketIDReceive) = stPlain.pid_recv.add p 0)) :=
  ⟨rfl, decrypt_mutates_window_only_on_accept stPlain ⟨[0, 0, 0, 5]⟩ 0 .SUCCESS ⟨[]⟩
    ⟨true, false, 0, 64, 6, [5]⟩ rfl⟩

/-- Claim C10: with an uninitialized anti-replay window,
`verify_packet_id` passes the buffer through with every byte intact, and
`decrypt` can never return `REPLAY_ERROR` nor change the window. -/
theorem decrypt_uninitialized_pid_no_replay (st : Decrypt) (buf : Buffer) (now : Nat)
    (h0 : st.pid_recv.init_done = false) :
    Decrypt.verify_packet_id st.pid_recv buf now = .ok (some (buf, st.pid_recv)) ∧
    ∀ out buf' pid', st.decrypt buf now = .ok (out, buf', pid') →
      out ≠ .REPLAY_ERROR ∧ pid' = st.pid_recv := by
  have hv : ∀ b : Buffer,
      Decrypt.verify_packet_id st.pid_recv b now = .ok (some (b, st.pid_recv)) := by
    intro b
    unfold Decrypt.verify_packet_id
    simp [h0]
  refine ⟨hv buf, ?_⟩
  intro out buf' pid' h
  unfold Decrypt.decrypt at h
  split at h
  · simp only [Except.ok.injEq, Prod.mk.injEq] at h
    exact ⟨h.1 ▸ (by simp), h.2.2.symm⟩
  · split at h
    · exact Except.noConfusion h
    · simp only [Except.ok.injEq, Prod.mk.injEq] at h
      exact ⟨h.1 ▸ (by simp), h.2.2.symm⟩
    · split at h
      · split at h
        · exact Except.noConfusion h
        · split at h
          · simp only [Except.ok.injEq, Prod.mk.injEq] at h
            exact ⟨h.1 ▸ (by simp), h.2.2.symm⟩
          · split at h
            · split at h
              · exact Except.noConfusion h
              · rename_i heq
                rw [hv] at heq
                exact absurd heq (by simp)
              · rename_i heq
                rw [hv] at heq
                simp only [Except.ok.injEq, Option.some.injEq, Prod.mk.injEq] at heq
                simp only [Except.ok.injEq, Prod.mk.injEq] at h
                exact ⟨h.1 ▸ (by simp), h.2.2 ▸ heq.2.symm⟩
            · exact Except.noConfusion h
      · split at h
        · exact Except.noConfusion h
        · rename_i heq
          rw [hv] at heq
          exact absurd heq (by simp)
        · rename_i heq
          rw [hv] at heq
          simp only [Except.ok.injEq, Option.some.injEq, Prod.mk.injEq] at heq
          simp only [Except.ok.injEq, Prod.mk.injEq] at h
          exact ⟨h.1 ▸ (by simp), h.2.2 ▸ heq.2.symm⟩

/-- Witness for claim C10's theorem: the all-off pipeline forwards a
two-byte packet unchanged and never reports a replay. -/
theorem decrypt_uninitialized_pid_no_replay_witness :
    stOff.pid_recv.init_done = false ∧
    Decrypt.verify_packet_id stOff.pid_recv ⟨[1, 2]⟩ 0
      = .ok (some (⟨[1, 2]⟩, stOff.pid_recv)) ∧
    (Error.SUCCESS ≠ Error.REPLAY_ERROR ∧ pidOff = stOff.pid_recv) :=
  ⟨rfl, (decrypt_uninitialized_pid_no_replay stOff ⟨[1, 2]⟩ 0 rfl).1,
    (decrypt_uninitialized_pid_no_replay stOff ⟨[1, 2]⟩ 0 rfl).2 .SUCCESS ⟨[1, 2]⟩
      pidOff rfl⟩

/-- Helper: two identifiers inside the same window of positive span that
agree modulo the span are equal. -/
theorem window_id_eq {s b i j : Nat} (_hs : 0 < s) (hi1 : b ≤ i) (hi2 : i < b + s)
    (hj1 : b ≤ j) (hj2 : j < b + s) (hmod : i % s = j % s) : i = j := by
  obtain ⟨ki, rfl⟩ := Nat.exists_eq_add_of_le hi1
  obtain ⟨kj, rfl⟩ := Nat.exists_eq_add_of_le hj1
  have h1 : ki % s = kj % s := Nat.ModEq.add_left_cancel' b hmod
  rw [Nat.mod_eq_of_lt (by omega), Nat.mod_eq_of_lt (by omega)] at h1
  omega

/-- Helper: `receive` on an in-window id stores the message and returns
`ACK_TO_SENDER ||| IN_WINDOW`. -/
theorem receive_eq_in_window (P : Type) (r : ReliableRecv P) (p : P) (id : Nat)
    (h1 : r.base ≤ id) (h2 : id < r.base + r.window_.span) :
    r.receive p id = (ACK_TO_SENDER ||| IN_WINDOW, ⟨r.window_.set_by_id id ⟨id, p⟩⟩) := by
  have hin : r.window_.in_window id = true := by
    simp only [MessageWindow.in_window, Bool.and_eq_true, decide_eq_true_eq]
    exact ⟨h1, h2⟩
  unfold ReliableRecv.receive
  rw [if_pos hin]

/-- Helper: `receive` on an id below the base acknowledges without
storing. -/
theorem receive_eq_pre_window (P : Type) (r : ReliableRecv P) (p : P) (id : Nat)
    (h1 : id < r.base) :
    r.receive p id = (ACK_TO_SENDER, r) := by
  have hb0 : r.base = r.window_.head_id := rfl
  have hin : ¬ r.window_.in_window id = true := by
    simp only [MessageWindow.in_window, Bool.and_eq_true, decide_eq_true_eq]
    omega
  have hpre : r.window_.pre_window id = true := by
    simp only [MessageWindow.pre_window, decide_eq_true_eq]
    omega
  unfold ReliableRecv.receive
  rw [if_neg hin, if_pos hpre]

/-- Helper: `receive` on an id at or past `base + span` returns no flags
and leaves the state untouched. -/
theorem receive_eq_post_window (P : Type) (r : ReliableRecv P) (p : P) (id : Nat)
    (h1 : r.base + r.window_.span ≤ id) :
    r.receive p id = (0, r) := by
  have hb0 : r.base = r.window_.head_id := rfl
  have hin : ¬ r.window_.in_window id = true := by
    simp only [MessageWindow.in_window, Bool.and_eq_true, decide_eq_true_eq]
    omega
  have hpre : ¬ r.window_.pre_window id = true := by
    simp only [MessageWindow.pre_window, decide_eq_true_eq]
    omega
  unfold ReliableRecv.receive
  rw [if_neg hin, if_neg hpre]

/-- Claim C5: `receive` classifies every id into exactly the three
contract cases — store and return `ACK_TO_SENDER ||| IN_WINDOW` iff
`base ≤ id < base + span`, acknowledge only (no mutation) iff
`id < base`, and drop (no flags, no mutation) iff `id ≥ base + span`. -/
theorem receive_trichotomy (P : Type) (r : ReliableRecv P) (p : P) (id : Nat) :
    (r.receive p id = (ACK_TO_SENDER ||| IN_WINDOW, ⟨r.window_.set_by_id id ⟨id, p⟩⟩) ↔
      r.base ≤ id ∧ id < r.base + r.window_.span) ∧
    (r.receive p id = (ACK_TO_SENDER, r) ↔ id < r.base) ∧
    (r.receive p id = (0, r) ↔ r.base + r.window_.span ≤ id) := by
  have c1 : (ACK_TO_SENDER ||| IN_WINDOW) ≠ ACK_TO_SENDER := by decide
  have c2 : (ACK_TO_SENDER ||| IN_WINDOW) ≠ 0 := by decide
  have c3 : ACK_TO_SENDER ≠ 0 := by decide
  rcases Nat.lt_or_ge id r.base with hlt | hge
  · rw [receive_eq_pre_window P r p id hlt]
    refine ⟨⟨fun hx => ?_, fun hx => ?_⟩, ⟨fun _ => hlt, fun _ => rfl⟩,
      ⟨fun hx => ?_, fun hx => ?_⟩⟩
    · exact absurd (congrArg Prod.fst hx) (fun he => c1 he.symm)
    · omega
    · exact absurd (congrArg Prod.fst hx) c3
    · omega
  · rcases Nat.lt_or_ge id (r.base + r.window_.span) with hlt2 | hge2
    · rw [receive_eq_in_window P r p id hge hlt2]
      refine ⟨⟨fun _ => ⟨hge, hlt2⟩, fun _ => rfl⟩, ⟨fun hx => ?_, fun hx => ?_⟩,
        ⟨fun hx => ?_, fun hx => ?_⟩⟩
      · exact absurd (congrArg Prod.fst hx) c1
      · omega
      · exact absurd (congrArg Prod.fst hx) c2
      · omega
    · rw [receive_eq_post_window P r p id hge2]
      refine ⟨⟨fun hx => ?_, fun hx => ?_⟩, ⟨fun hx => ?_, fun hx => ?_⟩,
        ⟨fun _ => hge2, fun _ => rfl⟩⟩
      · exact absurd (congrArg Prod.fst hx) (fun he => c2 he.symm)
      · omega
      · exact absurd (congrArg Prod.fst hx) (fun he => c3 he.symm)
      · omega

/-- Claim C7: re-receiving the same in-window id with the same packet is
idempotent — the second call returns the same flags and leaves the
window in exactly the state of the first call. -/
theorem receive_idempotent (P : Type) (r : ReliableRecv P) (p : P) (id : Nat)
    (h1 : r.base ≤ id) (h2 : id < r.base + r.window_.span) :
    ((r.receive p id).2).receive p id = r.receive p id ∧
    (r.receive p id).1 = (ACK_TO_SENDER ||| IN_WINDOW) := by
  have hb := receive_eq_in_window P r p id h1 h2
  have hb2 := receive_eq_in_window P ⟨r.window_.set_by_id id ⟨id, p⟩⟩ p id h1 h2
  rw [hb]
  refine ⟨?_, rfl⟩
  rw [hb2]
  simp only [MessageWindow.set_by_id, Prod.mk.injEq, List.set_set]

/-- Witness for claim C7's theorem: re-receiving id 1 in a span-2 window
with base 0. -/
theorem receive_idempotent_witness :
    rTwo.base ≤ 1 ∧ 1 < rTwo.base + rTwo.window_.span ∧
    (((rTwo.receive 7 1).2).receive 7 1 = rTwo.receive 7 1 ∧
      (rTwo.receive 7 1).1 = (ACK_TO_SENDER ||| IN_WINDOW)) :=
  ⟨by decide, by decide, receive_idempotent Nat rTwo 7 1 (by decide) (by decide)⟩

/-- Helper: the window invariant holds after any `receive`. -/
theorem inv_receive {P : Type} {r : ReliableRecv P} (hInv : r.Inv) (p : P) (id : Nat) :
    ((r.receive p id).2).Inv := by
  obtain ⟨hlen, hspan, hslots⟩ := hInv
  rcases Nat.lt_or_ge id r.base with hlt | hge
  · rw [receive_eq_pre_window P r p id hlt]
    exact ⟨hlen, hspan, hslots⟩
  · rcases Nat.lt_or_ge id (r.base + r.window_.span) with hlt2 | hge2
    · rw [receive_eq_in_window P r p id hge hlt2]
      refine ⟨?_, hspan, ?_⟩
      · show (r.window_.slots.set (id % r.window_.span) (some ⟨id, p⟩)).length
          = r.window_.span
        rw [List.length_set]
        exact hlen
      · intro k hk m hm
        show m.msg_id = r.window_.head_id + k
        have hmm : (r.window_.slots.set (id % r.window_.span) (some ⟨id, p⟩)).getD
            ((r.window_.head_id + k) % r.window_.span) none = some m := hm
        by_cases hj : (r.window_.head_id + k) % r.window_.span = id % r.window_.span
        · rw [List.getD_eq_getElem?_getD, hj,
            List.getElem?_set_self (by rw [hlen]; exact Nat.mod_lt _ hspan)] at hmm
          have hmeq : (⟨id, p⟩ : RMessage P) = m := Option.some.inj hmm
          have hidk : id = r.window_.head_id + k :=
            window_id_eq hspan hge hlt2 (Nat.le_add_right _ _)
              (Nat.add_lt_add_left hk _) hj.symm
          rw [← hmeq]
          exact hidk
        · have hne : id % r.window_.span ≠ (r.window_.head_id + k) % r.window_.span :=
            fun hx => hj hx.symm
          rw [List.getD_eq_getElem?_getD, List.getElem?_set_ne hne,
            ← List.getD_eq_getElem?_getD] at hmm
          exact hslots k hk m hmm
    · rw [receive_eq_post_window P r p id hge2]
      exact ⟨hlen, hspan, hslots⟩

/-- Helper: the window invariant holds after `advance`. -/
theorem inv_advance {P : Type} {r : ReliableRecv P} (hInv : r.Inv) :
    (r.advance).Inv := by
  obtain ⟨hlen, hspan, hslots⟩ := hInv
  refine ⟨?_, hspan, ?_⟩
  · show (r.window_.slots.set (r.window_.head_id % r.window_.span) none).length
      = r.window_.span
    rw [List.length_set]
    exact hlen
  · intro k hk m hm
    have hk0 : k < r.window_.span := hk
    show m.msg_id = r.window_.head_id + 1 + k
    have hmm : (r.window_.slots.set (r.window_.head_id % r.window_.span) none).getD
        ((r.window_.head_id + 1 + k) % r.window_.span) none = some m := hm
    by_cases hj : (r.window_.head_id + 1 + k) % r.window_.span
        = r.window_.head_id % r.window_.span
    · rw [List.getD_eq_getElem?_getD, hj,
        List.getElem?_set_self (by rw [hlen]; exact Nat.mod_lt _ hspan)] at hmm
      exact Option.noConfusion hmm
    · have hne : r.window_.head_id % r.window_.span
          ≠ (r.window_.head_id + 1 + k) % r.window_.span := fun hx => hj hx.symm
      rw [List.getD_eq_getElem?_getD, List.getElem?_set_ne hne,
        ← List.getD_eq_getElem?_getD] at hmm
      have hk1 : k + 1 < r.window_.span := by
        rcases Nat.lt_or_ge (k + 1) r.window_.span with h | h
        · exact h
        · exfalso
          apply hj
          have he : r.window_.head_id + 1 + k = r.window_.head_id + r.window_.span := by
            omega
          rw [he, Nat.add_mod_right]
      have hrw : r.window_.head_id + (k + 1) = r.window_.head_id + 1 + k := by omega
      have := hslots (k + 1) hk1 m (by rw [hrw]; exact hmm)
      omega

/-- Helper: the window invariant holds of a freshly initialized window
of positive span. -/
theorem inv_init (P : Type) (n : Nat) (hn : 0 < n) :
    (ReliableRecv.init (P := P) n).Inv := by
  refine ⟨List.length_replicate _ _, hn, ?_⟩
  intro k hk m hm
  have hmm : (List.replicate n (none : Option (RMessage P))).getD ((0 + k) % n) none
      = some m := hm
  rw [List.getD_eq_getElem?_getD, List.getElem?_replicate] at hmm
  split at hmm
  · exact Option.noConfusion hmm
  · exact Option.noConfusion hmm

/-- Helper: under the invariant, the message returned by
`next_sequenced` carries the base identifier. -/
theorem next_sequenced_msg_id {P : Type} {r : ReliableRecv P} (hInv : r.Inv)
    {m : RMessage P} (h : r.next_sequenced = some m) : m.msg_id = r.base := by
  obtain ⟨hlen, hspan, hslots⟩ := hInv
  exact hslots 0 hspan m h

/-- Helper: `receive` never changes the base. -/
theorem base_receive (P : Type) (r : ReliableRecv P) (p : P) (id : Nat) :
    ((r.receive p id).2).base = r.base := by
  unfold ReliableRecv.receive
  by_cases hin : r.window_.in_window id = true
  · rw [if_pos hin]
    rfl
  · rw [if_neg hin]

/-- Helper: no single call decreases the base. -/
theorem base_runOp_le (P : Type) (r : ReliableRecv P) (op : ReliableRecv.ROp P) :
    r.base ≤ (r.runOp op).base := by
  cases op with
  | recv p id => exact Nat.le_of_eq (base_receive P r p id).symm
  | adv => exact Nat.le_succ _

/-- Helper: the base is non-decreasing across any call sequence. -/
theorem base_runOps_le (P : Type) (r : ReliableRecv P)
    (ops : List (ReliableRecv.ROp P)) : r.base ≤ (r.runOps ops).base := by
  induction ops generalizing r with
  | nil => exact Nat.le_refl _
  | cons op ops ih => exact Nat.le_trans (base_runOp_le P r op) (ih _)

/-- Helper: the invariant is preserved by any call sequence. -/
theorem inv_runOps (P : Type) (r : ReliableRecv P)
    (ops : List (ReliableRecv.ROp P)) (hInv : r.Inv) : (r.runOps ops).Inv := by
  induction ops generalizing r with
  | nil => exact hInv
  | cons op ops ih =>
      refine ih _ ?_
      cases op with
      | recv p id => exact inv_receive hInv p id
      | adv => exact inv_advance hInv

/-- Claim C6: over any sequence of `receive` and `advance` calls the
base is non-decreasing; `advance` increments it by exactly one,
`receive` never changes it; the invariant holds of every reachable
state; and `next_sequenced` after an `advance` never returns the message
returned before the `advance` — delivery is strictly in sequence
order. -/
theorem window_base_monotone_in_order (P : Type) (r : ReliableRecv P)
    (ops : List (ReliableRecv.ROp P)) (p : P) (id n : Nat) (m m' : RMessage P) :
    r.base ≤ (r.runOps ops).base ∧
    (r.advance).base = r.base + 1 ∧
    ((r.receive p id).2).base = r.base ∧
    (0 < n → (ReliableRecv.init (P := P) n).Inv) ∧
    (r.Inv → (r.runOps ops).Inv) ∧
    (r.Inv → r.next_sequenced = some m → (r.advance).next_sequenced = some m' →
      m'.msg_id = m.msg_id + 1 ∧ m' ≠ m) := by
  refine ⟨base_runOps_le P r ops, rfl, base_receive P r p id,
    inv_init P n, inv_runOps P r ops, ?_⟩
  intro hInv hm hm'
  have h1 : m.msg_id = r.base := next_sequenced_msg_id hInv hm
  have h2 : m'.msg_id = (r.advance).base := next_sequenced_msg_id (inv_advance hInv) hm'
  have h3 : (r.advance).base = r.base + 1 := rfl
  refine ⟨by omega, fun he => ?_⟩
  rw [he] at h2
  omega

/-- Witness for claim C6's theorem: in a span-2 window holding messages
100 and 101, the head message before and after `advance` differ. -/
theorem window_base_monotone_in_order_witness :
    rTwo.Inv ∧ rTwo.next_sequenced = some ⟨0, 100⟩ ∧
    (rTwo.advance).next_sequenced = some ⟨1, 101⟩ ∧
    ((⟨1, 101⟩ : RMessage Nat).msg_id = (⟨0, 100⟩ : RMessage Nat).msg_id + 1 ∧
      (⟨1, 101⟩ : RMessage Nat) ≠ ⟨0, 100⟩) :=
  ⟨by decide, rfl, rfl,
    (window_base_monotone_in_order Nat rTwo [] 0 0 1 ⟨0, 100⟩ ⟨1, 101⟩).2.2.2.2.2
      (by decide) rfl rfl⟩

end openvpn
